import Mathlib

/-!
Verification of the ms2txt Metastock-to-text converter.

The Python sources (`metastock/utils.py`, `metastock/files.py`) are embedded
shallowly: Python integers become `Int`/`Nat` (Python `//` and `%` on a
positive divisor agree with `Int.ediv`/`Int.emod`), Python's arbitrary
precision two's-complement bitwise operators become `Int.land`/`Int.lor` and
the `ℤ` shift instances, raw bytes become `Nat` values below 256, and code
that can raise an exception returns `Option`/`Except`.

Floating point is handled at the bit-pattern level: `fmsbin2ieee` in the
source builds the four bytes of an IEEE-754 single and reinterprets them with
`struct.unpack("f", ...)`, a bijection between 4-byte strings and IEEE bit
patterns.  We keep the four produced bytes (little endian).  Under that
bijection the Python float `0.0` is exactly the pattern `[0, 0, 0, 0]` and
`1.0` is exactly the pattern `[0, 0, 0x80, 0x3f]`.  Truncation of a float by
Python's `int(...)` is exact integer arithmetic on the bit pattern and is
modelled by `ieeeTrunc`.
-/

/-- Python's bitwise `&` on arbitrary-precision two's-complement integers
(a negative number `-(m+1)` has the bits of the complement of `m`).  Written
with the kernel-computable `Nat` operations; `Nat.ldiff m n` is expressed as
`m - (m &&& n)` (the bits of `m` split into those shared with `n` and the
rest). -/
def pyAnd (a b : Int) : Int :=
  match a, b with
  | .ofNat m, .ofNat n => .ofNat (m &&& n)
  | .ofNat m, .negSucc n => .ofNat (m - (m &&& n))
  | .negSucc m, .ofNat n => .ofNat (n - (n &&& m))
  | .negSucc m, .negSucc n => .negSucc (m ||| n)

/-- Python's bitwise `|` on arbitrary-precision two's-complement integers. -/
def pyOr (a b : Int) : Int :=
  match a, b with
  | .ofNat m, .ofNat n => .ofNat (m ||| n)
  | .ofNat m, .negSucc n => .negSucc (n - (n &&& m))
  | .negSucc m, .ofNat n => .negSucc (m - (m &&& n))
  | .negSucc m, .negSucc n => .negSucc (m &&& n)

/-- Python's arithmetic right shift `>>` on two's-complement integers. -/
def pyShr (a : Int) (n : Nat) : Int :=
  match a with
  | .ofNat m => .ofNat (m >>> n)
  | .negSucc m => .negSucc (m >>> n)

/-- Python's left shift `<<`. -/
def pyShl (a : Int) (n : Nat) : Int :=
  match a with
  | .ofNat m => .ofNat (m <<< n)
  | .negSucc m => .negSucc ((m + 1) <<< n - 1)

/-- Embedding of `fmsbin2ieee` from `metastock/utils.py` (lines 8-32).
Takes the four input bytes (little endian) and returns the four bytes of the
IEEE-754 single produced by the function.  The early `return 0.0` branches
are the pattern `[0,0,0,0]` of the float `0.0`.  The first unpack
(`as_int`) always yields a one-element tuple, so its guard is dead code and
the only early exit is `man == 0`. -/
def fmsbin2ieee (b0 b1 b2 b3 : Nat) : List Nat :=
  let man : Int := b2 + 256 * b3
  if man = 0 then [0, 0, 0, 0]
  else
    let exp : Int := pyAnd man 0xff00 - 0x0200
    let man1 : Int := pyOr (pyAnd man 0x7f) (pyAnd (pyShl man 8) 0x8000)
    let man2 : Int := pyOr man1 (pyShr exp 1)
    [b0, b1, (pyAnd man2 255).toNat, (pyAnd (pyShr man2 8) 255).toNat]

/-- Bit pattern (little endian bytes) of the IEEE-754 single `1.0`,
i.e. `0x3f800000`: `struct.unpack("f", b"\x00\x00\x80\x3f") == 1.0`. -/
def oneBits : List Nat := [0, 0, 0x80, 0x3f]

/-- Bit pattern (little endian bytes) of the IEEE-754 single `0.0`. -/
def zeroBits : List Nat := [0, 0, 0, 0]

/-- Modelled from the spec: the exponent-overflow guard of the legacy
MBF-to-IEEE routine ("if the reconstructed exponent's sign bit disagrees
with the original mantissa's sign bit").  In 16-bit legacy arithmetic this
is the test `(exp & 0x8000) != (man & 0x8000)` on the words `man` (bytes 2
and 3 of the input) and `exp = (man & 0xff00) - 0x0200`.  No such guard
exists in `fmsbin2ieee` in `metastock/utils.py`. -/
def mbfOverflow (b2 b3 : Nat) : Bool :=
  let man : Nat := b2 + 256 * b3
  let exp : Int := pyAnd (man : Int) 0xff00 - 0x0200
  decide ((exp.emod 65536).toNat >>> 15 ≠ man >>> 15)

/-- Truncation `int(x)` of the IEEE-754 single with the given bit pattern
(little endian bytes).  Floats are exact binary rationals, so truncation
toward zero is exact integer arithmetic on sign, exponent and fraction.
Python's `int(...)` raises on an infinity or NaN (exponent field 255),
modelled by `none`; a malformed byte list (a short `struct` read in the
source) also raises. -/
def ieeeTrunc (bs : List Nat) : Option Int :=
  match bs with
  | [b0, b1, b2, b3] =>
    let u : Nat := b0 + 256 * b1 + 65536 * b2 + 16777216 * b3
    let sign : Nat := u / 2 ^ 31 % 2
    let e : Nat := u / 2 ^ 23 % 256
    let f : Nat := u % 2 ^ 23
    if e = 255 then none
    else
      let mag : Nat :=
        if e = 0 then 0
        else if 150 ≤ e then (2 ^ 23 + f) * 2 ^ (e - 150)
        else (2 ^ 23 + f) / 2 ^ (150 - e)
      some (if sign = 1 then -(mag : Int) else (mag : Int))
  | _ => none

/-- Result type of Python's `datetime.date`: year, month, day. -/
structure PyDate where
  year : Int
  month : Int
  day : Int
deriving DecidableEq

/-- Result type of Python's `datetime.time` as used by the source
(seconds are always 0): hour and minute. -/
structure PyTime where
  hour : Int
  minute : Int
deriving DecidableEq

/-- Length of a month in the proleptic Gregorian calendar used by Python's
`datetime` (models CPython's `_days_in_month`). -/
def daysInMonth (y m : Int) : Int :=
  if m = 2 then
    (if y.emod 4 = 0 ∧ (y.emod 100 ≠ 0 ∨ y.emod 400 = 0) then 29 else 28)
  else if m = 4 ∨ m = 6 ∨ m = 9 ∨ m = 11 then 30
  else 31

/-- Models the constructor `datetime.date(year, month, day)`: it validates
`MINYEAR <= year <= MAXYEAR`, `1 <= month <= 12` and
`1 <= day <= days_in_month(year, month)` and raises `ValueError` otherwise
(modelled by `none`). -/
def mkDate (y m d : Int) : Option PyDate :=
  if 1 ≤ y ∧ y ≤ 9999 ∧ 1 ≤ m ∧ m ≤ 12 ∧ 1 ≤ d ∧ d ≤ daysInMonth y m then
    some ⟨y, m, d⟩
  else none

/-- Models the constructor `datetime.time(hour, minute)`: it validates
`0 <= hour <= 23` and `0 <= minute <= 59` and raises `ValueError` otherwise
(modelled by `none`). -/
def mkTime (h mi : Int) : Option PyTime :=
  if 0 ≤ h ∧ h ≤ 23 ∧ 0 ≤ mi ∧ mi ≤ 59 then some ⟨h, mi⟩ else none

/-- Embedding of `float2date` from `metastock/utils.py` (lines 34-45).  The
argument is the result of the leading `int(date)` truncation (see
`ieeeTrunc` for how a float argument is truncated); `//` and `%` on the
positive divisors are `Int.ediv`/`Int.emod`. -/
def float2date (date : Int) : Option PyDate :=
  let date : Int := if date < 101 then 101 else date
  mkDate (1900 + date.ediv 10000) ((date.emod 10000).ediv 100) (date.emod 100)

/-- Embedding of `float2time` from `metastock/utils.py` (lines 53-61).  The
argument is the result of the leading `int(time)` truncation. -/
def float2time (time : Int) : Option PyTime :=
  mkTime (time.ediv 10000) ((time.emod 10000).ediv 100)

/-- Embedding of the `Stock` class of `metastock/files.py` (lines 203-218):
one record slot of an index file.  Dates are `Option PyDate` (class default
`None`, set by the readers via `float2date`). -/
structure Stock where
  file_number : Nat
  record_length : Nat
  fields : Nat
  stock_symbol : String
  stock_name : String
  first_date : Option PyDate
  last_date : Option PyDate
  time_frame : String
  datafile_ext : String
  filename : String
deriving DecidableEq

/-- The four decode behaviors of the column classes nested in `DatFile`
(`DateColumn`, `TimeColumn`, `FloatColumn`, `IntColumn`). -/
inductive ColKind where
  | date
  | time
  | float
  | int
deriving DecidableEq

/-- Embedding of the registry `DatFile.knownMSColumns` (lines 124-133):
maps a Metastock column name to its display name and decode behavior;
`none` for a name absent from the registry. -/
def knownMSColumns : String → Option (String × ColKind)
  | "DATE" => some ("Date", ColKind.date)
  | "TIME" => some ("Time", ColKind.time)
  | "OPEN" => some ("Open", ColKind.float)
  | "HIGH" => some ("High", ColKind.float)
  | "LOW" => some ("Low", ColKind.float)
  | "CLOSE" => some ("Close", ColKind.float)
  | "VOL" => some ("Volume", ColKind.int)
  | "OI" => some ("Oi", ColKind.int)
  | _ => none

/-- One decoded-and-formatted output field of a data row.  The text
renderings of the source are injective images of these values
(`strftime("%Y%m%d")`, `strftime("%H%M%S")`, `str(int)`, and `"%0.pf"` of
the float with the configured precision), so the field content is modelled
up to that rendering; for a float column we keep the IEEE bit pattern the
formatter receives. -/
inductive MsField where
  | date : PyDate → MsField
  | time : PyTime → MsField
  | float : List Nat → MsField
  | int : Int → MsField
deriving DecidableEq

/-- `fmsbin2ieee` applied to a raw byte string: a `struct` unpack of a
string whose length is not 4 raises (modelled by `none`). -/
def fmsbin2ieeeBytes : List Nat → Option (List Nat)
  | [b0, b1, b2, b3] => some (fmsbin2ieee b0 b1 b2 b3)
  | _ => none

/-- The `read` methods of the four column classes (lines 81-121):
`DateColumn` is `float2date(fmsbin2ieee(bytes))`, `TimeColumn` is
`float2time(fmsbin2ieee(bytes))`, `FloatColumn` is `fmsbin2ieee(bytes)`,
`IntColumn` is `int(fmsbin2ieee(bytes))`; `none` models a raised
exception. -/
def colRead (k : ColKind) (bs : List Nat) : Option MsField :=
  match k with
  | ColKind.date =>
    (fmsbin2ieeeBytes bs).bind fun ieee =>
      (ieeeTrunc ieee).bind fun v => (float2date v).map MsField.date
  | ColKind.time =>
    (fmsbin2ieeeBytes bs).bind fun ieee =>
      (ieeeTrunc ieee).bind fun v => (float2time v).map MsField.time
  | ColKind.float => (fmsbin2ieeeBytes bs).map MsField.float
  | ColKind.int =>
    (fmsbin2ieeeBytes bs).bind fun ieee => (ieeeTrunc ieee).map MsField.int

/-- A `file_handle.read(n)` at position `pos` of a file with the given
bytes: the source always unpacks the result with a fixed-size `struct`
format, which raises when fewer than `n` bytes remain (modelled by
`none`). -/
def readBytes (dat : List Nat) (pos n : Nat) : Option (List Nat) :=
  if pos + n ≤ dat.length then some ((dat.drop pos).take n) else none

/-- `struct.unpack("H", file.read(2))` at a position: a little-endian
unsigned 16-bit integer. -/
def readU16 (dat : List Nat) (pos : Nat) : Option Nat :=
  match readBytes dat pos 2 with
  | some [a, b] => some (a + 256 * b)
  | _ => none

/-- The inner column loop of `DatFile.dump_candles` (lines 171-183) for one
record: an unresolved column (`None` in the `columns` list) seeks 4 bytes
forward (`unknownColumnDataSize`) without reading and emits nothing; a
resolved column reads 4 bytes (`dataSize`), decodes them and emits one
field.  Returns the emitted fields and the new cursor position. -/
def readRecord : List (Option (String × ColKind)) → List Nat → Nat →
    Option (List MsField × Nat)
  | [], _, pos => some ([], pos)
  | none :: cs, dat, pos => readRecord cs dat (pos + 4)
  | some cd :: cs, dat, pos =>
    match readBytes dat pos 4 with
    | none => none
    | some bs =>
      match colRead cd.2 bs with
      | none => none
      | some f => (readRecord cs dat (pos + 4)).map fun pr => (f :: pr.1, pr.2)

/-- The record loop of `DatFile.dump_candles` (lines 169-185): `n` records
are read in sequence, each producing one output row prefixed with the
symbol code. -/
def readRecords : Nat → List (Option (String × ColKind)) → List Nat → Nat →
    String → Option (List (String × List MsField))
  | 0, _, _, _, _ => some []
  | n + 1, cs, dat, pos, sym =>
    match readRecord cs dat pos with
    | none => none
    | some pr => (readRecords n cs dat pr.2 sym).map fun rows => (sym, pr.1) :: rows

/-- The header-line loop of `DatFile.dump_candles` (lines 160-166): each
recognized column contributes its display name; an unrecognized one
contributes nothing. -/
def headerNames (cols : List String) : List String :=
  cols.filterMap fun n => (knownMSColumns n).map Prod.fst

/-- The text written for one symbol: the header line (`"Name"` plus the
display names of the recognized columns) and the data rows (symbol code
plus decoded fields). -/
structure DumpOut where
  header : List String
  rows : List (String × List MsField)
deriving DecidableEq

/-- Embedding of `DatFile.dump_candles` (lines 139-185): read the 2-byte
`max_recs` and 2-byte `last_rec` header words, seek `(fields - 1) * 4`
bytes forward (a relative seek in Python integer arithmetic, hence computed
in `Int`; it never goes below position 0), resolve the column names, then
read `last_rec - 1` records.  `none` models an exception escaping to the
caller. -/
def dump_candles (sym : String) (fields : Nat) (cols : List String)
    (dat : List Nat) : Option DumpOut :=
  match readU16 dat 0, readU16 dat 2 with
  | some _, some lr =>
    let pos0 : Nat := ((4 : Int) + ((fields : Int) - 1) * 4).toNat
    match readRecords (lr - 1) (cols.map knownMSColumns) dat pos0 sym with
    | none => none
    | some rows => some ⟨"Name" :: headerNames cols, rows⟩
  | _, _ => none

/-- Models the regex capture used by `DatFile.load_columns` (the compiled
pattern matching a quote, a greedy nonempty group, a quote, a comma and at
least one further character) searched in one whitespace-delimited token:
the group runs from the leftmost opening quote to the last later quote that
is directly followed by a comma and at least one more character.  When the
token has no match the source calls `.groups()` on `None` and raises,
modelled by `none`. -/
def extractColName (tok : String) : Option String :=
  let cs := tok.toList
  let n := cs.length
  match cs.findIdx? (fun c => c = '\"') with
  | none => none
  | some i =>
    let stops := (List.range n).filter fun j =>
      i + 2 ≤ j ∧ cs.getD j ' ' = '\"' ∧ cs.getD (j + 1) ' ' = ',' ∧ j + 2 < n
    match stops.max? with
    | none => none
    | some j => some (String.mk ((cs.drop (i + 1)).take (j - i - 1)))

/-- Embedding of `DatFile.load_columns` (lines 29-55).  `dop` is the DOP
sidecar: `none` when the file `F<n>.DOP` does not exist, otherwise the
whitespace-split tokens of its contents.  With no DOP file the assertion
`fields in (7, 8)` admits only the two default column sets; with a DOP file
the assertion `len(lines) == fields` requires the token count to equal the
field count.  A failed assertion or extraction raises, modelled by
`none`. -/
def load_columns (fields : Nat) (dop : Option (List String)) :
    Option (List String) :=
  match dop with
  | none =>
    if fields = 7 ∨ fields = 8 then
      if fields = 7 then some ["DATE", "OPEN", "HIGH", "LOW", "CLOSE", "VOL", "OI"]
      else some ["DATE", "TIME", "OPEN", "HIGH", "LOW", "CLOSE", "VOL", "OI"]
    else none
  | some toks =>
    if toks.length = fields then toks.mapM extractColName else none

/-- Embedding of `DatFile.dump` (lines 21-27) for one symbol: run
`load_columns` then `dump_candles`; any exception is caught at this
boundary and reported together with the offending symbol code
(`"Error while converting symbol", self.stock.stock_symbol`), modelled by
`Except.error` carrying the symbol code. -/
def dat_dump (s : Stock) (dop : Option (List String)) (dat : List Nat) :
    Except String DumpOut :=
  match load_columns s.fields dop with
  | none => Except.error s.stock_symbol
  | some cols =>
    match dump_candles s.stock_symbol s.fields cols dat with
    | none => Except.error s.stock_symbol
    | some out => Except.ok out

/-- One unit of work of `MetastockFiles.output_ascii`: a catalog entry
together with the contents of its `F<n>.DOP` sidecar (if any) and its data
file. -/
structure Job where
  stock : Stock
  dop : Option (List String)
  dat : List Nat
deriving DecidableEq

/-- Embedding of `MetastockFiles.output_ascii` together with
`dump_stock_to_file` (lines 193-200 and 419-429) over the selected
symbols: each symbol is converted independently and its (possibly failed)
result is paired with its symbol code. -/
def output_ascii (jobs : List Job) : List (String × Except String DumpOut) :=
  jobs.map fun j => (j.stock.stock_symbol, dat_dump j.stock j.dop j.dat)

/-- One iteration of the MASTER loop of `MetastockFiles.__init__`
(lines 376-379): a symbol with a positive file number is stored in the
catalog under its file number, any other symbol is skipped. -/
def masterStep (m : Nat → Option Stock) (s : Stock) : Nat → Option Stock :=
  if 0 < s.file_number then
    fun k => if k = s.file_number then some s else m k
  else m

/-- One iteration of the EMASTER loop of `MetastockFiles.__init__`
(lines 382-394): when the record has a positive file number, a non-empty
name and its file number is already a catalog key, the stored entry's
`stock_name` is overwritten; otherwise nothing happens. -/
def emasterStep (m : Nat → Option Stock) (s : Stock) : Nat → Option Stock :=
  if 0 < s.file_number ∧ 0 < s.stock_name.length ∧ (m s.file_number).isSome then
    fun k =>
      if k = s.file_number then
        (m s.file_number).map fun old => { old with stock_name := s.stock_name }
      else m k
  else m

/-- Embedding of the catalog construction of `MetastockFiles.__init__`
(lines 372-395): start from the empty mapping, run the MASTER loop, then
the EMASTER loop.  The XMASTER loop is commented out in the source and does
not take part. -/
def buildSymbols (master emaster : List Stock) : Nat → Option Stock :=
  emaster.foldl emasterStep (master.foldl masterStep fun _ => none)

/-- A concrete MASTER catalog entry used by the witnesses (file number 5,
name "OLD", 7 fields). -/
def stockOld : Stock :=
  ⟨5, 28, 7, "AAA", "OLD", none, none, "D", ".DAT", "F5"⟩

/-- A concrete EMASTER record used by the witnesses (file number 5, name
"NEW"). -/
def stockNew : Stock :=
  ⟨5, 0, 7, "AAA", "NEW", none, none, "D", ".DAT", "F5"⟩

/-- A concrete EMASTER record whose file number 9 is absent from the
MASTER data. -/
def stockNine : Stock :=
  ⟨9, 0, 7, "NNN", "NINE", none, none, "D", ".DAT", "F9"⟩

/-- A stock whose DOP file will disagree with its field count in the C7
witness. -/
def stockBad : Stock :=
  ⟨6, 28, 7, "BAD", "BADNAME", none, none, "D", ".DAT", "F6"⟩

/-- The MBF encoding of the float `101.0`: mantissa `0.1100101`, exponent
`128 + 7`.  `fmsbin2ieee` maps it to the IEEE pattern `[0, 0, 0xca, 0x42]`
(the single `101.0`), and `101` decodes as the date 1900-01-01. -/
def mbf101 : List Nat := [0, 0, 0x4a, 0x87]

/-- A synthetic 7-field DAT file: header `max_recs = 1`, `last_rec = 2`,
24 bytes of header padding, then one record of 7 MBF-encoded fields, each
holding `101.0`. -/
def dat7 : List Nat :=
  [1, 0, 2, 0] ++ List.replicate 24 0 ++
    (mbf101 ++ mbf101 ++ mbf101 ++ mbf101 ++ mbf101 ++ mbf101 ++ mbf101)

/-- The output `dump_candles` produces for `dat7` under the default
7-column layout. -/
def out7 : DumpOut :=
  ⟨["Name", "Date", "Open", "High", "Low", "Close", "Volume", "Oi"],
    [("GOOD",
      [MsField.date ⟨1900, 1, 1⟩, MsField.float [0, 0, 0xca, 0x42],
        MsField.float [0, 0, 0xca, 0x42], MsField.float [0, 0, 0xca, 0x42],
        MsField.float [0, 0, 0xca, 0x42], MsField.int 101, MsField.int 101])]⟩

/-- A stock that converts successfully in the C7 witness. -/
def stockGood : Stock :=
  ⟨4, 28, 7, "GOOD", "GOODNAME", none, none, "D", ".DAT", "F4"⟩

/-- C1: the spec demands that on exponent overflow (`mbfOverflow`) the
decode return the sentinel `1.0`.  The code has no such branch: at the
failing input `b"\x00\x00\x00\x01"` the overflow condition holds, yet
`fmsbin2ieee` returns the bit pattern `[0, 0, 0x80, 0xff]` (`0xff800000`,
the IEEE single `-inf`), not the pattern of `1.0`. -/
theorem fmsbin2ieee_overflow_no_sentinel :
    mbfOverflow 0 1 = true ∧
      fmsbin2ieee 0 0 0 1 = [0, 0, 0x80, 0xff] ∧
      fmsbin2ieee 0 0 0 1 ≠ oneBits := by
  refine ⟨by decide, by decide, by decide⟩

/-- C2: for every 4-byte input whose two mantissa bytes (bytes 2 and 3,
the word `man`) are zero, `fmsbin2ieee` returns exactly `0.0` (the bit
pattern `zeroBits`), whatever the first two bytes hold. -/
theorem fmsbin2ieee_zero_mantissa (b0 b1 : Nat) :
    fmsbin2ieee b0 b1 0 0 = zeroBits := by
  simp [fmsbin2ieee, zeroBits]

/-- C3: `float2date` clamps every value below 101 up to 101, which decodes
as the date 1900-01-01, and for every other value builds the date whose
year is `1900 + value / 10000` (integer division), month is
`(value mod 10000) / 100` and day is `value mod 100` (the construction
being subject to the `datetime.date` validation `mkDate`; its partiality
is the subject of C10).  The argument is the already-truncated integer
value. -/
theorem float2date_spec (v : Int) :
    (v < 101 → float2date v = some ⟨1900, 1, 1⟩) ∧
    (101 ≤ v →
      float2date v =
        mkDate (1900 + v.ediv 10000) ((v.emod 10000).ediv 100) (v.emod 100)) := by
  constructor
  · intro h
    simp only [float2date]
    rw [if_pos h]
    decide
  · intro h
    simp only [float2date]
    rw [if_neg (by omega)]

/-- Witness for C3: the clamp at `50` yields 1900-01-01, and `1200615`
(the Metastock encoding of 2020-06-15: `(2020 - 1900) * 10000 + 615`)
decodes as 2020-06-15. -/
theorem float2date_spec_witness :
    float2date 50 = some ⟨1900, 1, 1⟩ ∧ float2date 1200615 = some ⟨2020, 6, 15⟩ := by
  constructor
  · exact (float2date_spec 50).1 (by decide)
  · rw [(float2date_spec 1200615).2 (by decide)]
    decide

/-- C10: beyond the clamp of values below 101, the temporal decoders
perform no range validation of their own: whenever the digit split of the
(clamped) value yields a month of 0 or above 12, a day of 0 or beyond the
month's length, an hour of 24 or more, or a minute of 60 or more, the
`datetime` constructor raises and the decoder returns no value (`none`)
instead of a result. -/
theorem temporal_decoders_raise (v t y m d h mi : Int) (hv : 101 ≤ v)
    (hy : y = 1900 + v.ediv 10000) (hm : m = (v.emod 10000).ediv 100)
    (hd : d = v.emod 100) (hh : h = t.ediv 10000)
    (hmi : mi = (t.emod 10000).ediv 100) :
    ((m = 0 ∨ 12 < m ∨ d = 0 ∨ daysInMonth y m < d) → float2date v = none) ∧
    ((24 ≤ h ∨ 60 ≤ mi) → float2time t = none) := by
  subst hy hm hd hh hmi
  constructor
  · intro hbad
    simp only [float2date]
    rw [if_neg (by omega)]
    simp only [mkDate]
    rw [if_neg]
    rintro ⟨h1, h2, h3, h4, h5, h6⟩
    rcases hbad with hb | hb | hb | hb <;> omega
  · intro hbad
    simp only [float2time, mkTime]
    rw [if_neg]
    rintro ⟨h1, h2, h3, h4⟩
    rcases hbad with hb | hb <;> omega

/-- Witness for C10: `1300` splits into month 13 and raises, `240000`
splits into hour 24 and raises. -/
theorem temporal_decoders_raise_witness :
    float2date 1300 = none ∧ float2time 240000 = none := by
  have h := temporal_decoders_raise 1300 240000 1900 13 0 24 0 (by decide)
    (by decide) (by decide) (by decide) (by decide) (by decide)
  exact ⟨h.1 (Or.inr (Or.inl (by decide))), h.2 (Or.inl (by decide))⟩

/-- The MASTER loop step only inserts under a positive key. -/
theorem masterStep_keys (m : Nat → Option Stock) (s : Stock)
    (hm : ∀ k, m k ≠ none → 0 < k) : ∀ k, masterStep m s k ≠ none → 0 < k := by
  intro k h
  unfold masterStep at h
  by_cases hfn : 0 < s.file_number
  · rw [if_pos hfn] at h
    by_cases hk : k = s.file_number
    · omega
    · rw [if_neg hk] at h
      exact hm k h
  · rw [if_neg hfn] at h
    exact hm k h

/-- The MASTER loop preserves positivity of all catalog keys. -/
theorem foldl_masterStep_keys (ss : List Stock) (m : Nat → Option Stock)
    (hm : ∀ k, m k ≠ none → 0 < k) :
    ∀ k, (ss.foldl masterStep m) k ≠ none → 0 < k := by
  induction ss generalizing m with
  | nil => exact hm
  | cons s ss ih => exact ih (masterStep m s) (masterStep_keys m s hm)

/-- The EMASTER loop step never touches a key that is not already
present, so it too preserves positivity of all catalog keys. -/
theorem emasterStep_keys (m : Nat → Option Stock) (s : Stock)
    (hm : ∀ k, m k ≠ none → 0 < k) : ∀ k, emasterStep m s k ≠ none → 0 < k := by
  intro k h
  unfold emasterStep at h
  by_cases hc : 0 < s.file_number ∧ 0 < s.stock_name.length ∧
      (m s.file_number).isSome
  · rw [if_pos hc] at h
    by_cases hk : k = s.file_number
    · omega
    · rw [if_neg hk] at h
      exact hm k h
  · rw [if_neg hc] at h
    exact hm k h

/-- The EMASTER loop preserves positivity of all catalog keys. -/
theorem foldl_emasterStep_keys (ss : List Stock) (m : Nat → Option Stock)
    (hm : ∀ k, m k ≠ none → 0 < k) :
    ∀ k, (ss.foldl emasterStep m) k ≠ none → 0 < k := by
  induction ss generalizing m with
  | nil => exact hm
  | cons s ss ih => exact ih (emasterStep m s) (emasterStep_keys m s hm)

/-- C4: for every pair of MASTER and EMASTER inputs, the symbol catalog
built by `buildSymbols` holds no entry under file number 0: every key with
an entry is strictly positive. -/
theorem buildSymbols_keys_pos (master emaster : List Stock) (k : Nat)
    (h : buildSymbols master emaster k ≠ none) : 0 < k := by
  unfold buildSymbols at h
  exact foldl_emasterStep_keys emaster _
    (foldl_masterStep_keys master _ fun _ hk => absurd rfl hk) k h

/-- Witness for C4: a concrete catalog with one MASTER entry under file
number 5 has an entry at key 5, and the key is positive. -/
theorem buildSymbols_keys_pos_witness :
    buildSymbols [stockOld] [stockNew] 5 ≠ none ∧ 0 < 5 :=
  ⟨by decide, buildSymbols_keys_pos [stockOld] [stockNew] 5 (by decide)⟩

/-- C5: one EMASTER merge iteration, on a record with a positive file
number, a non-empty name and a file number already present in the catalog,
overwrites exactly the `stock_name` of the stored entry (every other field
of that entry, and every other key, is untouched); a record whose file
number has no entry leaves the catalog entirely unchanged and is never
inserted. -/
theorem emasterStep_frame (m : Nat → Option Stock) (s : Stock) :
    (∀ old : Stock, 0 < s.file_number → 0 < s.stock_name.length →
      m s.file_number = some old →
        emasterStep m s s.file_number = some { old with stock_name := s.stock_name } ∧
        ∀ k, k ≠ s.file_number → emasterStep m s k = m k) ∧
    (m s.file_number = none → emasterStep m s = m) := by
  constructor
  · intro old hfn hname hold
    have hc : 0 < s.file_number ∧ 0 < s.stock_name.length ∧
        (m s.file_number).isSome := ⟨hfn, hname, by rw [hold]; rfl⟩
    constructor
    · unfold emasterStep
      rw [if_pos hc, if_pos rfl, hold]
      rfl
    · intro k hk
      unfold emasterStep
      rw [if_pos hc, if_neg hk]
  · intro hnone
    unfold emasterStep
    rw [if_neg]
    rintro ⟨-, -, hs⟩
    rw [hnone] at hs
    exact Bool.false_ne_true hs

/-- Witness for C5, the catalog-merge example of the spec: with MASTER
entry `{file_number: 5, name: "OLD"}` already stored, the EMASTER record
`{file_number: 5, name: "NEW"}` rewrites only the name, and the EMASTER
record with file number 9 (absent from MASTER) changes nothing, so the
catalog still has no entry for 9. -/
theorem emasterStep_frame_witness :
    emasterStep (masterStep (fun _ => none) stockOld) stockNew 5 =
      some { stockOld with stock_name := "NEW" } ∧
    emasterStep (masterStep (fun _ => none) stockOld) stockNine =
      masterStep (fun _ => none) stockOld := by
  constructor
  · exact ((emasterStep_frame (masterStep (fun _ => none) stockOld) stockNew).1
      stockOld (by decide) (by decide) (by decide)).1
  · exact (emasterStep_frame (masterStep (fun _ => none) stockOld) stockNine).2
      (by decide)

/-- With no DOP file, a field count other than 7 or 8 fails the assertion
in `load_columns`. -/
theorem load_columns_not78 (f : Nat) (h7 : f ≠ 7) (h8 : f ≠ 8) :
    load_columns f none = none := by
  unfold load_columns
  rw [if_neg]
  rintro (h | h) <;> contradiction

/-- C6: with no DOP sidecar, a 7-field symbol gets the default column
sequence `DATE,OPEN,HIGH,LOW,CLOSE,VOL,OI`, an 8-field symbol the same
sequence with `TIME` inserted directly after `DATE`, and any other field
count is a hard failure for that symbol (the assertion raises, and the
symbol's conversion ends in an error carrying its symbol code). -/
theorem load_columns_defaults :
    load_columns 7 none = some ["DATE", "OPEN", "HIGH", "LOW", "CLOSE", "VOL", "OI"] ∧
    load_columns 8 none =
      some ["DATE", "TIME", "OPEN", "HIGH", "LOW", "CLOSE", "VOL", "OI"] ∧
    (∀ f : Nat, f ≠ 7 → f ≠ 8 → load_columns f none = none) ∧
    (∀ (s : Stock) (dat : List Nat), s.fields ≠ 7 → s.fields ≠ 8 →
      dat_dump s none dat = Except.error s.stock_symbol) := by
  refine ⟨by decide, by decide, load_columns_not78, ?_⟩
  intro s dat h7 h8
  unfold dat_dump
  rw [load_columns_not78 s.fields h7 h8]

/-- Witness for C6: field count 9 with no DOP file fails, and the failure
of the 9-field stock is reported under its symbol code. -/
theorem load_columns_defaults_witness :
    load_columns 9 none = none ∧
    dat_dump { stockBad with fields := 9 } none [] = Except.error "BAD" := by
  refine ⟨load_columns_defaults.2.2.1 9 (by decide) (by decide), ?_⟩
  exact load_columns_defaults.2.2.2 { stockBad with fields := 9 } [] (by decide)
    (by decide)

/-- C7: a DOP file whose token count differs from the symbol's field count
makes that symbol's conversion fail with its own symbol code; the batch
driver converts every selected symbol independently (one result per job),
and a failing job in the middle leaves the results of the jobs before and
after it untouched — it never aborts the batch. -/
theorem per_symbol_failure_isolated :
    (∀ (s : Stock) (toks : List String) (dat : List Nat),
        toks.length ≠ s.fields →
          dat_dump s (some toks) dat = Except.error s.stock_symbol) ∧
    (∀ jobs : List Job, (output_ascii jobs).length = jobs.length) ∧
    (∀ (pre post : List Job) (j : Job),
        output_ascii (pre ++ j :: post) =
          output_ascii pre ++
            (j.stock.stock_symbol, dat_dump j.stock j.dop j.dat) ::
              output_ascii post) := by
  refine ⟨?_, ?_, ?_⟩
  · intro s toks dat h
    simp only [dat_dump, load_columns]
    rw [if_neg h]
  · intro jobs
    simp [output_ascii]
  · intro pre post j
    simp [output_ascii]

/-- Witness for C7: a mismatching one-token DOP file for the 7-field stock
`BAD` yields an error carrying `"BAD"`, and in a three-job batch with that
failure in the middle the first and last jobs are converted exactly as
they would be alone. -/
theorem per_symbol_failure_isolated_witness :
    dat_dump stockBad (some ["\"A\",x"]) [] = Except.error "BAD" ∧
    output_ascii
        [⟨stockGood, none, dat7⟩, ⟨stockBad, some ["\"A\",x"], []⟩,
          ⟨stockGood, none, dat7⟩] =
      output_ascii [⟨stockGood, none, dat7⟩] ++
        ("BAD", dat_dump stockBad (some ["\"A\",x"]) []) ::
          output_ascii [⟨stockGood, none, dat7⟩] := by
  constructor
  · exact per_symbol_failure_isolated.1 stockBad ["\"A\",x"] [] (by decide)
  · exact per_symbol_failure_isolated.2.2 [⟨stockGood, none, dat7⟩]
      [⟨stockGood, none, dat7⟩] ⟨stockBad, some ["\"A\",x"], []⟩

/-- Splitting the column loop of one record: the fields are emitted in
order and the cursor position threads through. -/
theorem readRecord_append (xs ys : List (Option (String × ColKind)))
    (dat : List Nat) (pos : Nat) :
    readRecord (xs ++ ys) dat pos =
      (readRecord xs dat pos).bind fun p =>
        (readRecord ys dat p.2).map fun q => (p.1 ++ q.1, q.2) := by
  induction xs generalizing pos with
  | nil =>
    rw [List.nil_append]
    show readRecord ys dat pos =
      (readRecord ys dat pos).map fun q => ([] ++ q.1, q.2)
    cases readRecord ys dat pos with
    | none => rfl
    | some q => rfl
  | cons c xs ih =>
    cases c with
    | none =>
      rw [List.cons_append]
      show readRecord (xs ++ ys) dat (pos + 4) =
        (readRecord xs dat (pos + 4)).bind fun p =>
          (readRecord ys dat p.2).map fun q => (p.1 ++ q.1, q.2)
      exact ih (pos + 4)
    | some cd =>
      rw [List.cons_append]
      simp only [readRecord]
      cases readBytes dat pos 4 with
      | none => rfl
      | some bs =>
        dsimp only
        cases colRead cd.2 bs with
        | none => rfl
        | some f =>
          dsimp only
          rw [ih (pos + 4)]
          cases readRecord xs dat (pos + 4) with
          | none => rfl
          | some p =>
            cases hy : readRecord ys dat p.2 <;> simp [hy]

/-- An unregistered column name contributes nothing to the header line. -/
theorem headerNames_unknown (name : String) (h : knownMSColumns name = none)
    (cs1 cs2 : List String) :
    headerNames (cs1 ++ name :: cs2) = headerNames (cs1 ++ cs2) := by
  simp [headerNames, List.filterMap_append, List.filterMap_cons, h]

/-- C8: a column name absent from the registry, at any place in the column
sequence, advances the record cursor by exactly 4 bytes in every record
(the columns after it read from a position shifted by exactly 4) and
contributes no field to the record's output row; and it contributes no
name to the header line. -/
theorem unknown_column_skip (name : String) (h : knownMSColumns name = none) :
    (∀ (cs1 cs2 : List String) (dat : List Nat) (pos : Nat),
        readRecord ((cs1 ++ name :: cs2).map knownMSColumns) dat pos =
          (readRecord (cs1.map knownMSColumns) dat pos).bind fun p =>
            (readRecord (cs2.map knownMSColumns) dat (p.2 + 4)).map fun q =>
              (p.1 ++ q.1, q.2)) ∧
    (∀ cs1 cs2 : List String,
        headerNames (cs1 ++ name :: cs2) = headerNames (cs1 ++ cs2)) := by
  constructor
  · intro cs1 cs2 dat pos
    rw [List.map_append, List.map_cons, h, readRecord_append]
    rfl
  · exact headerNames_unknown name h

/-- Witness for C8: with the unknown name `"FOO"` between `DATE` and `OI`,
the record read of `dat7` at position 28 decomposes with the 4-byte skip,
and the header names are those of `DATE` and `OI` alone. -/
theorem unknown_column_skip_witness :
    readRecord ((["DATE"] ++ "FOO" :: ["OI"]).map knownMSColumns) dat7 28 =
      ((readRecord (["DATE"].map knownMSColumns) dat7 28).bind fun p =>
        (readRecord (["OI"].map knownMSColumns) dat7 (p.2 + 4)).map fun q =>
          (p.1 ++ q.1, q.2)) ∧
    headerNames (["DATE"] ++ "FOO" :: ["OI"]) = headerNames (["DATE"] ++ ["OI"]) :=
  ⟨(unknown_column_skip "FOO" (by decide)).1 ["DATE"] ["OI"] dat7 28,
    (unknown_column_skip "FOO" (by decide)).2 ["DATE"] ["OI"]⟩

/-- A successful record loop yields exactly as many rows as requested,
each prefixed with the symbol code. -/
theorem readRecords_shape (cs : List (Option (String × ColKind)))
    (dat : List Nat) (sym : String) :
    ∀ (n pos : Nat) (rows : List (String × List MsField)),
      readRecords n cs dat pos sym = some rows →
        rows.length = n ∧ ∀ r ∈ rows, r.1 = sym := by
  intro n
  induction n with
  | zero =>
    intro pos rows h
    simp only [readRecords, Option.some.injEq] at h
    subst h
    simp
  | succ n ih =>
    intro pos rows h
    simp only [readRecords] at h
    cases hrec : readRecord cs dat pos with
    | none => simp [hrec] at h
    | some pr =>
      simp only [hrec] at h
      cases hrest : readRecords n cs dat pr.2 sym with
      | none => simp [hrest] at h
      | some rest =>
        rw [hrest] at h
        simp only [Option.map_some', Option.some.injEq] at h
        subst h
        obtain ⟨hlen, hall⟩ := ih pr.2 rest hrest
        refine ⟨by simp [hlen], ?_⟩
        intro r hr
        rcases List.mem_cons.mp hr with hr | hr
        · rw [hr]
        · exact hall r hr

/-- C9: a successful DAT dump reads the 2-byte `max_recs` and `last_rec`
header words, emits the header row (`"Name"` plus the recognized column
names), emits exactly `last_rec - 1` data rows, each prefixed with the
symbol code, and those rows are exactly the ones read by the record loop
starting right after the `(field_count - 1) * 4` bytes of header padding
(byte position `4 + (field_count - 1) * 4`). -/
theorem dump_candles_shape (sym : String) (fields : Nat) (cols : List String)
    (dat : List Nat) (mr lr : Nat) (out : DumpOut)
    (hm : readU16 dat 0 = some mr) (hl : readU16 dat 2 = some lr)
    (h : dump_candles sym fields cols dat = some out) :
    out.header = "Name" :: headerNames cols ∧
    out.rows.length = lr - 1 ∧
    (∀ r ∈ out.rows, r.1 = sym) ∧
    readRecords (lr - 1) (cols.map knownMSColumns) dat
        (((4 : Int) + ((fields : Int) - 1) * 4).toNat) sym = some out.rows := by
  simp only [dump_candles, hm, hl] at h
  cases hrec : readRecords (lr - 1) (cols.map knownMSColumns) dat
      (((4 : Int) + ((fields : Int) - 1) * 4).toNat) sym with
  | none => simp [hrec] at h
  | some rows =>
    simp only [hrec, Option.some.injEq] at h
    subst h
    obtain ⟨hlen, hall⟩ := readRecords_shape (cols.map knownMSColumns) dat sym
      (lr - 1) (((4 : Int) + ((fields : Int) - 1) * 4).toNat) rows hrec
    exact ⟨rfl, hlen, hall, rfl⟩

/-- Witness for C9, the end-to-end example of the spec: the synthetic
7-field DAT file `dat7` with `max_recs = 1` and `last_rec = 2` produces
the header line and exactly `2 - 1 = 1` data row, prefixed with the symbol
code `"GOOD"`. -/
theorem dump_candles_shape_witness :
    dump_candles "GOOD" 7 ["DATE", "OPEN", "HIGH", "LOW", "CLOSE", "VOL", "OI"]
        dat7 = some out7 ∧
    out7.header =
      "Name" :: headerNames ["DATE", "OPEN", "HIGH", "LOW", "CLOSE", "VOL", "OI"] ∧
    out7.rows.length = 2 - 1 := by
  refine ⟨by decide, ?_, ?_⟩
  · exact (dump_candles_shape "GOOD" 7
      ["DATE", "OPEN", "HIGH", "LOW", "CLOSE", "VOL", "OI"] dat7 1 2 out7
      (by decide) (by decide) (by decide)).1
  · exact (dump_candles_shape "GOOD" 7
      ["DATE", "OPEN", "HIGH", "LOW", "CLOSE", "VOL", "OI"] dat7 1 2 out7
      (by decide) (by decide) (by decide)).2.1
